import Mathlib

/-!
# Verification of the VC-intelligence enrichment pipeline

A shallow embedding of the enrichment core of the repository:

* `src/app/api/enrich/route.ts` — the `POST` enrichment handler: rate-limit
  gate, URL normalization, content acquisition with graceful degradation,
  structured extraction with Gemini→Groq fallback, embedding generation, and
  persistence;
* `src/app/api/companies/route.ts` — the tracking endpoint's domain cleaning
  and shell-record creation;
* `supabase/migrations/initial_schema.sql` — the `match_companies` similarity
  query.

Strings manipulated character-wise (URLs, domains, page content) are embedded
as `List Char`; opaque payload strings (model output fields, error messages)
stay `String`.  Timestamps are embedded as integer milliseconds since epoch,
so `new Date(x).getTime()` subtraction becomes integer subtraction.  External
interactions (the Jina fetch, the two model providers, the embedding call and
the database update) are embedded as an environment record holding each
interaction's outcome; the handler is then a pure function of the request,
the stored row and that environment, returning the HTTP-style response
together with the effects it performed and the resulting row state.
-/

namespace VCIntel

/-! ## JavaScript string primitives used by the routes -/

/-- Whitespace recognized by `String.prototype.trim` (the forms relevant to
URL input: space, tab, newline, carriage return). -/
def jsSpace (c : Char) : Bool := c == ' ' || c == '\t' || c == '\n' || c == '\r'

/-- `s.trim()`: remove leading and trailing whitespace. -/
def jsTrim (l : List Char) : List Char :=
  ((l.dropWhile jsSpace).reverse.dropWhile jsSpace).reverse

/-- `s.replace(/\/+$/, '')`: remove every trailing `'/'`. -/
def stripTrailingSlashes (l : List Char) : List Char :=
  (l.reverse.dropWhile (· == '/')).reverse

/-- Characters that terminate the host component of an `http(s)` URL. -/
def hostEnd (c : Char) : Bool := c == '/' || c == ':' || c == '?' || c == '#'

/-- ASCII lowercasing, as WHATWG domain parsing applies to an ASCII host. -/
def lowerAscii (c : Char) : Char :=
  if 'A' ≤ c ∧ c ≤ 'Z' then Char.ofNat (c.toNat + 32) else c

/-- Characters that end the authority component of a special-scheme URL in
the WHATWG parser: `/`, `\` (treated like `/` for `http(s)`), `?`, `#`. -/
def authorityEnd (c : Char) : Bool :=
  c == '/' || c == '\\' || c == '?' || c == '#'

/-- The hostname the WHATWG parser derives from the scheme-relative part of
an `http(s)` URL: the authority runs to the first `/`, `\`, `?` or `#`;
userinfo up to the last `@` is stripped; a `:` starts the port; the ASCII
host is lowercased.  IPv6 brackets, percent-encoding, punycoding of
non-ASCII labels, and the rejection of forbidden host code points (which
make `new URL` throw) are not modeled — `validDomain` below confines every
quantified input to the region where this model agrees with `new URL`. -/
def jsHostname (rest : List Char) : List Char :=
  ((((rest.takeWhile (fun c => !authorityEnd c)).reverse.takeWhile
      (fun c => !(c == '@'))).reverse).takeWhile
      (fun c => !(c == ':'))).map lowerAscii

/-- Host component of the scheme-relative part of a URL; an empty host is a
parse failure (`new URL` throws). -/
def hostOf (rest : List Char) : Option (List Char) :=
  if (jsHostname rest).isEmpty then none else some (jsHostname rest)

/-- `new URL(s).hostname`, restricted to the lowercase `http`/`https`
schemes the normalizer produces or passes through (any string without a
scheme throws, which the route catches into its fallback). -/
def parseHostname (l : List Char) : Option (List Char) :=
  if "https://".data.isPrefixOf l then hostOf (l.drop 8)
  else if "http://".data.isPrefixOf l then hostOf (l.drop 7)
  else none

/-- `hostname.replace(/^www\./, '')`: drop one leading `www.` label. -/
def stripWww (l : List Char) : List Char :=
  if "www.".data.isPrefixOf l then l.drop 4 else l

/-- Lines 127–131 of `enrich/route.ts`: trim, prepend `https://` when the
string does not start with `http`, strip trailing slashes. -/
def normalizeScrapeUrl (url : List Char) : List Char :=
  stripTrailingSlashes
    (if "http".data.isPrefixOf (jsTrim url) then jsTrim url
     else "https://".data ++ jsTrim url)

/-- Lines 134–135 of `enrich/route.ts`: parse the host and drop a leading
`www.`; on a parse failure keep the normalized URL string itself. -/
def cleanDomainOf (scrapeUrl : List Char) : List Char :=
  match parseHostname scrapeUrl with
  | some h => stripWww h
  | none => scrapeUrl

/-- The canonical domain the enrichment route derives from raw user input:
normalization followed by domain cleaning. -/
def canonicalDomain (url : List Char) : List Char :=
  cleanDomainOf (normalizeScrapeUrl url)

/-- A character a plain domain label may contain for the purpose of the
normalizer: not a host terminator and not whitespace. -/
def domainChar (c : Char) : Bool := !(hostEnd c || jsSpace c)

/-- The characters on which the modeled URL parsing provably agrees with
`new URL().hostname`: lowercase ASCII letters, digits, dot and hyphen.
Uppercase letters (lowercased by the parser), `@` (userinfo), `\`
(authority terminator), and forbidden host code points are excluded. -/
def safeChars : List Char := "abcdefghijklmnopqrstuvwxyz0123456789.-".data

/-- Membership in `safeChars`. -/
def hostChar (c : Char) : Bool := safeChars.elem c

/-- A valid bare domain string: nonempty, made of lowercase domain
characters on which the modeled parser is faithful, and not itself carrying
a `www.` label. -/
def validDomain (d : List Char) : Bool :=
  !d.isEmpty && d.all hostChar && !"www.".data.isPrefixOf d

/-! ## Data model -/

/-- The JSON object both model providers are asked to return
(`JSON_SCHEMA` in `enrich/route.ts`): the `ExtractionResult` shape. -/
structure ParsedData where
  summary : String
  whatTheyDo : List String
  keywords : List String
  signals : List String
  thesisScore : Int
  thesisExplanation : String
  deriving DecidableEq

/-- What the route actually holds after `JSON.parse` of a Groq reply: the
code performs no shape validation (spec §9: "no static shape guarantee"),
so each of the six expected members may be absent — an absent member is
`undefined` in `parsedData` and is later dropped from the serialized update.
The Gemini reply, by contrast, is schema-constrained with all six fields
required, so that leg yields a complete `ParsedData`.  A member present with
a wrong-typed or explicit-null value is not distinguished here; presence or
absence is the dimension the persistence claims depend on. -/
structure GroqParsed where
  summary : Option String
  whatTheyDo : Option (List String)
  keywords : Option (List String)
  signals : Option (List String)
  thesisScore : Option Int
  thesisExplanation : Option String
  deriving DecidableEq

/-- A schema-validated (Gemini) reply viewed as a parse result with every
member present. -/
def toPartial (pd : ParsedData) : GroqParsed :=
  { summary := some pd.summary, whatTheyDo := some pd.whatTheyDo,
    keywords := some pd.keywords, signals := some pd.signals,
    thesisScore := some pd.thesisScore,
    thesisExplanation := some pd.thesisExplanation }

/-- One element of the `sources` array written by a successful run. -/
structure EnrichSource where
  url : List Char
  fetchedAt : Int
  provider : String
  deriving DecidableEq

/-- A row of `public.companies` (initial_schema.sql): base fields plus the
nullable enrichment fields. -/
structure Company where
  id : List Char
  name : String
  domain : List Char
  sector : String
  stage : String
  location : String
  description : String
  enrichment_summary : Option String
  what_they_do : Option (List String)
  keywords : Option (List String)
  signals : Option (List String)
  sources : Option (List EnrichSource)
  thesis_score : Option Int
  thesis_explanation : Option String
  embedding : Option (List Int)
  last_enriched_at : Option Int
  deriving DecidableEq

/-- The success payload of the enrichment endpoint: the parsed members
spread together with the `sources` array (`enrichedData` in the route);
members absent from the parse stay absent in the response. -/
structure Enriched where
  summary : Option String
  whatTheyDo : Option (List String)
  keywords : Option (List String)
  signals : Option (List String)
  thesisScore : Option Int
  thesisExplanation : Option String
  sources : List EnrichSource
  deriving DecidableEq

/-- The single update object the persister sends (`updatePayload` in the
route).  The six members copied from the parsed reply may be `undefined`
when the (unvalidated) secondary reply lacked them — `JSON.stringify` then
drops them from the request body, so those columns are not touched.
`sources` and `last_enriched_at` are constructed by the handler itself and
are always present; the `embedding` key is added only when a vector was
produced. -/
structure UpdatePayload where
  enrichment_summary : Option String
  what_they_do : Option (List String)
  keywords : Option (List String)
  signals : Option (List String)
  sources : List EnrichSource
  thesis_score : Option Int
  thesis_explanation : Option String
  last_enriched_at : Int
  embedding : Option (List Int)
  deriving DecidableEq

/-- Whether the update carries every one of the six reply-derived members. -/
def fullPayload (p : UpdatePayload) : Prop :=
  p.enrichment_summary.isSome = true ∧ p.what_they_do.isSome = true ∧
  p.keywords.isSome = true ∧ p.signals.isSome = true ∧
  p.thesis_score.isSome = true ∧ p.thesis_explanation.isSome = true

/-- Outcomes of the external interactions of one request, supplied as an
environment: current time, configured API keys, and each provider call's
result. -/
structure Env where
  now : Int
  geminiKey : Bool
  groqKey : Bool
  jinaResult : Option (List Char)
  geminiResult : Except String ParsedData
  groqResult : Except String GroqParsed
  embeddingResult : Option (List Int)
  dbUpdateError : Option String

/-- External calls performed during one request, and the data handed to
each stage. -/
structure Effects where
  scrapeCalled : Bool
  geminiCalled : Bool
  groqCalled : Bool
  embedCalled : Bool
  dbWriteAttempted : Bool
  extractorInput : Option (List Char)
  geminiContent : Option (List Char)
  groqContent : Option (List Char)
  writtenPayload : Option UpdatePayload
  deriving DecidableEq

/-- The effects record of a request that performed no external call. -/
def noEffects : Effects :=
  { scrapeCalled := false, geminiCalled := false, groqCalled := false,
    embedCalled := false, dbWriteAttempted := false, extractorInput := none,
    geminiContent := none, groqContent := none, writtenPayload := none }

/-- The response of the enrichment endpoint together with the effects of the
run and the state of the matching row afterwards. -/
structure Outcome where
  status : Nat
  error : Option String
  payload : Option Enriched
  effects : Effects
  db : Option Company
  deriving DecidableEq

/-! ## The enrichment pipeline -/

/-- The knowledge-fallback instruction block substituted for the page content
when the scrape failed or returned fewer than 50 characters after trimming
(lines 160–165 of `enrich/route.ts`). -/
def fallbackBlock (scrapeUrl cleanDomain : List Char) : List Char :=
  "IMPORTANT: The website at ".data ++ scrapeUrl ++
  " could not be scraped. However, you MUST still analyze this company using your training data and general knowledge.\n\nCompany domain: ".data ++
  cleanDomain ++
  "\nCompany URL: ".data ++ scrapeUrl ++
  "\n\nUse everything you know about this company from your training data. If this is a well-known company, provide detailed analysis. If this is an unknown company, make reasonable inferences from the domain name about what they likely do, their probable sector, and potential signals. Do NOT return empty fields — always provide your best assessment.".data

/-- Result of `extractWithGroq`: the configured-key check happens before any
network call, so a missing key is the thrown configuration error; with the
key present the environment supplies the combined outcome of the HTTP call,
the empty-reply check, and `JSON.parse`. -/
def groqOutcome (env : Env) : Except String GroqParsed :=
  if env.groqKey then env.groqResult
  else .error "GROQ_API_KEY not configured for fallback."

/-- `extractWithGroq(markdownContent, url)`: the outcome paired with the
content actually placed in the prompt — `markdownContent.slice(0, 60000)` —
which is `none` when the key check threw before any request was made. -/
def extractWithGroq (env : Env) (markdownContent : List Char) :
    Except String GroqParsed × Option (List Char) :=
  (groqOutcome env,
   if env.groqKey then some (markdownContent.take 60000) else none)

/-- The content handed to the structured extractor: the scraped body when
the fetch succeeded and yielded at least 50 characters after trimming (the
route checks `!markdownContent || markdownContent.trim().length < 50`, and a
missing body is the empty string, so the single trimmed-length test covers
both), otherwise the knowledge-fallback block built from the normalized URL
and cleaned domain. -/
def mdContentOf (env : Env) (url : List Char) : List Char :=
  if (jsTrim (env.jinaResult.getD [])).length < 50 then
    fallbackBlock (normalizeScrapeUrl url)
      (cleanDomainOf (normalizeScrapeUrl url))
  else env.jinaResult.getD []

/-- The freshness gate (lines 114–123): block when the row exists, has a
`last_enriched_at`, and fewer than 3 600 000 ms have elapsed.  The source
compares `(now - last) / (1000*60*60) < 1` in exact arithmetic, which is the
same condition. -/
def rateLimited (env : Env) (record : Option Company) : Bool :=
  match record with
  | some c =>
    match c.last_enriched_at with
    | some t => decide (env.now - t < 3600000)
    | none => false
  | none => false

/-- A member present in the serialized update sets the column; a member
dropped by serialization (`undefined`) leaves the column as it was. -/
def setOrKeep {α : Type} (o : Option α) (base : Option α) : Option α :=
  match o with
  | some v => some v
  | none => base

/-- Apply the persister's update object to a row: the members present in
the serialized body set their columns; `sources` and `last_enriched_at` are
always present; a member dropped by serialization leaves its column
untouched, as does the absent `embedding` key. -/
def applyPayload (p : UpdatePayload) (c : Company) : Company :=
  { c with
    enrichment_summary := setOrKeep p.enrichment_summary c.enrichment_summary,
    what_they_do := setOrKeep p.what_they_do c.what_they_do,
    keywords := setOrKeep p.keywords c.keywords,
    signals := setOrKeep p.signals c.signals,
    sources := some p.sources,
    thesis_score := setOrKeep p.thesis_score c.thesis_score,
    thesis_explanation :=
      setOrKeep p.thesis_explanation c.thesis_explanation,
    last_enriched_at := some p.last_enriched_at,
    embedding := setOrKeep p.embedding c.embedding }

/-- The update object a successful run sends for provider `prov`: the six
members copied from the parse result (absent when the reply lacked them),
the single-element `sources` array, the refreshed timestamp, and the
embedding key exactly when the embedding stage produced a vector. -/
def payloadOf (env : Env) (u : List Char) (gp : GroqParsed)
    (prov : String) : UpdatePayload :=
  { enrichment_summary := gp.summary, what_they_do := gp.whatTheyDo,
    keywords := gp.keywords, signals := gp.signals,
    sources := [{ url := u, fetchedAt := env.now, provider := prov }],
    thesis_score := gp.thesisScore,
    thesis_explanation := gp.thesisExplanation,
    last_enriched_at := env.now,
    embedding := if env.geminiKey then env.embeddingResult else none }

/-- The `POST` handler of `src/app/api/enrich/route.ts` as a pure function of
the request body (`url`, `companyId`, both falsy-checked), the stored row
matching `companyId` (`none` when no row matches; `.single()` then yields a
null `cData` and the gate passes), and the environment.  A zero-row update is
not a database error (PostgREST reports success with no rows), so
`dbUpdateError` applies only when a row matches. -/
def POST (env : Env) (url0 companyId0 : Option (List Char))
    (record : Option Company) : Outcome :=
  if url0.getD [] = [] ∨ companyId0.getD [] = [] then
    { status := 400, error := some "Missing 'url' or 'companyId' parameter",
      payload := none, effects := noEffects, db := record }
  else
    let url := url0.getD []
    if rateLimited env record then
      { status := 429,
        error := some "Rate Limit Exceeded: This company was recently enriched. Please wait an hour.",
        payload := none, effects := noEffects, db := record }
    else
      let markdownContent := mdContentOf env url
      let ext : Except String (GroqParsed × String) × Bool × Option (List Char) :=
        if env.geminiKey then
          match env.geminiResult with
          | .ok pd => (.ok (toPartial pd, "gemini"), false, none)
          | .error ge =>
            match extractWithGroq env markdownContent with
            | (.ok gp, gc) => (.ok (gp, "groq"), true, gc)
            | (.error qe, gc) =>
              (.error ("Both Gemini and Groq failed. Gemini: " ++ ge ++ ". Groq: " ++ qe),
               true, gc)
        else
          match extractWithGroq env markdownContent with
          | (.ok gp, gc) => (.ok (gp, "groq"), true, gc)
          | (.error qe, gc) =>
            (.error ("No GEMINI_API_KEY set, and Groq fallback failed: " ++ qe),
             true, gc)
      let effBase : Effects :=
        { scrapeCalled := true, geminiCalled := env.geminiKey,
          groqCalled := ext.2.1, embedCalled := false,
          dbWriteAttempted := false,
          extractorInput := some markdownContent,
          geminiContent :=
            if env.geminiKey then some (markdownContent.take 100000) else none,
          groqContent := ext.2.2, writtenPayload := none }
      match ext.1 with
      | .error msg =>
        { status := 500, error := some msg, payload := none,
          effects := effBase, db := record }
      | .ok (gp, provider) =>
        let enriched : Enriched :=
          { summary := gp.summary, whatTheyDo := gp.whatTheyDo,
            keywords := gp.keywords, signals := gp.signals,
            thesisScore := gp.thesisScore,
            thesisExplanation := gp.thesisExplanation,
            sources := [{ url := url, fetchedAt := env.now, provider := provider }] }
        let embedding : Option (List Int) :=
          if env.geminiKey then env.embeddingResult else none
        let payload : UpdatePayload :=
          { enrichment_summary := enriched.summary,
            what_they_do := enriched.whatTheyDo,
            keywords := enriched.keywords,
            signals := enriched.signals,
            sources := enriched.sources,
            thesis_score := enriched.thesisScore,
            thesis_explanation := enriched.thesisExplanation,
            last_enriched_at := env.now,
            embedding := embedding }
        let eff2 : Effects :=
          { effBase with
              embedCalled := env.geminiKey,
              dbWriteAttempted := true,
              writtenPayload := some payload }
        match record with
        | none =>
          { status := 200, error := none, payload := some enriched,
            effects := eff2, db := none }
        | some c =>
          match env.dbUpdateError with
          | some e =>
            { status := 500,
              error := some ("Failed to save enrichment to database: " ++ e),
              payload := none, effects := eff2, db := some c }
          | none =>
            { status := 200, error := none, payload := some enriched,
              effects := eff2, db := some (applyPayload payload c) }

/-! ## The tracking endpoint's shell record -/

/-- `newCompanyData` in `src/app/api/companies/route.ts`: the shell row
upserted for a newly tracked URL; every enrichment column is absent. -/
def newCompanyData (id : List Char) (name : Option String)
    (domain : List Char) : Company :=
  { id := id,
    name := match name with
      | some n => if n = "" then String.mk domain else n
      | none => String.mk domain,
    domain := domain,
    sector := "Uncategorized", stage := "Unknown", location := "Unknown",
    description := "Pending AI Enrichment",
    enrichment_summary := none, what_they_do := none, keywords := none,
    signals := none, sources := none, thesis_score := none,
    thesis_explanation := none, embedding := none, last_enriched_at := none }

/-- All eight enrichment columns carry a value. -/
def allEnrichedPresent (c : Company) : Prop :=
  c.enrichment_summary.isSome = true ∧ c.what_they_do.isSome = true ∧
  c.keywords.isSome = true ∧ c.signals.isSome = true ∧
  c.sources.isSome = true ∧ c.thesis_score.isSome = true ∧
  c.thesis_explanation.isSome = true ∧ c.last_enriched_at.isSome = true

/-- All eight enrichment columns are null. -/
def allEnrichedAbsent (c : Company) : Prop :=
  c.enrichment_summary = none ∧ c.what_they_do = none ∧
  c.keywords = none ∧ c.signals = none ∧
  c.sources = none ∧ c.thesis_score = none ∧
  c.thesis_explanation = none ∧ c.last_enriched_at = none

instance (c : Company) : Decidable (allEnrichedPresent c) := by
  unfold allEnrichedPresent; infer_instance

instance (c : Company) : Decidable (allEnrichedAbsent c) := by
  unfold allEnrichedAbsent; infer_instance

/-! ## The similarity query -/

/-- One row of the table returned by `match_companies`. -/
structure MatchRow where
  id : List Char
  name : String
  domain : List Char
  sector : String
  stage : String
  similarity : ℚ
  deriving DecidableEq

/-- The SQL function `match_companies` of `initial_schema.sql`, parameterized
by the cosine-distance operator `<=>` (whose analytic definition involves
irrational norms and is outside the relational logic verified here; every
property below holds for an arbitrary distance function).  Rows with a null
embedding never enter candidacy, the excluded id and rows at or below the
threshold are filtered out, rows are ordered by ascending distance — embedded
here as descending `similarity = 1 - distance`, the same order — and the
result is truncated to `match_count`. -/
def match_companies (dist : List Int → List Int → ℚ) (rows : List Company)
    (query_embedding : List Int) (match_threshold : ℚ) (match_count : Nat)
    (exclude_id : List Char) : List MatchRow :=
  let scored := rows.filterMap fun c =>
    match c.embedding with
    | none => none
    | some e =>
      if c.id ≠ exclude_id ∧ match_threshold < 1 - dist e query_embedding then
        some { id := c.id, name := c.name, domain := c.domain,
               sector := c.sector, stage := c.stage,
               similarity := 1 - dist e query_embedding }
      else none
  (scored.insertionSort (fun a b => b.similarity ≤ a.similarity)).take match_count

/-! ## Concrete fixtures for witnesses and counterexamples -/

/-- A concrete provider reply of the required shape. -/
def pdFix : ParsedData :=
  { summary := "Acme builds rockets", whatTheyDo := ["rockets"],
    keywords := ["aerospace"], signals := ["hiring"], thesisScore := 80,
    thesisExplanation := "strong fit" }

/-- A freshly tracked shell row, never enriched. -/
def shellFix : Company := newCompanyData "c1".data none "acme.com".data

/-- The shell row after an enrichment stamped at time 0. -/
def recentFix : Company := { shellFix with last_enriched_at := some 0 }

/-- A nominal environment: ten minutes past epoch, both keys configured, the
scrape failing, both providers succeeding, an embedding produced, and the
database healthy. -/
def envFix : Env :=
  { now := 600000, geminiKey := true, groqKey := true,
    jinaResult := none, geminiResult := .ok pdFix,
    groqResult := .ok (toPartial pdFix),
    embeddingResult := some [1, 2], dbUpdateError := none }

/-- A stored row carrying an embedding, for the similarity query. -/
def rowFixA : Company :=
  { newCompanyData "a1".data none "a.com".data with embedding := some [1] }

/-- A second stored row with the identical embedding. -/
def rowFixB : Company :=
  { newCompanyData "b2".data none "b.com".data with embedding := some [1] }

/-- Both providers failing. -/
def envBothFail : Env :=
  { envFix with
      geminiResult := .error "gemini boom",
      groqResult := .error "groq boom" }

/-- A failing database update. -/
def envDbFail : Env :=
  { envFix with
      dbUpdateError := some "connection reset" }

/-- A failing embedding call. -/
def envNoEmbed : Env :=
  { envFix with
      embeddingResult := none }

/-- A 60-character scrape with the primary provider failing. -/
def envSmall : Env :=
  { envFix with
      jinaResult := some (List.replicate 60 'a'),
      geminiResult := .error "g" }

/-- A 60 001-character scrape with the primary provider failing. -/
def envBig : Env :=
  { envFix with
      jinaResult := some (List.replicate 60001 'a'),
      geminiResult := .error "g" }

/-- A parseable secondary reply that carries only a summary: valid JSON the
code accepts without shape validation. -/
def gpPartial : GroqParsed :=
  { summary := some "x", whatTheyDo := none, keywords := none,
    signals := none, thesisScore := none, thesisExplanation := none }

/-- No primary key configured, secondary replying with the partial object:
the route goes straight to Groq and persists whatever members exist. -/
def envPartial : Env :=
  { envFix with
      geminiKey := false,
      groqResult := .ok gpPartial }

/-! ## List toolbox -/

theorem isPrefixOf_eq_true_iff {l₁ l₂ : List Char} :
    l₁.isPrefixOf l₂ = true ↔ l₁ <+: l₂ := List.isPrefixOf_iff_prefix

theorem isPrefixOf_of_isPre {p l : List Char} (h : p <+: l) :
    p.isPrefixOf l = true := isPrefixOf_eq_true_iff.mpr h

theorem ne_true_of_eq_false {b : Bool} (h : b = false) : ¬ b = true := by
  simp [h]

theorem setOrKeep_isSome {α : Type} {o base : Option α}
    (h : o.isSome = true) : (setOrKeep o base).isSome = true := by
  cases o with
  | none => exact absurd h (by simp)
  | some v => rfl

theorem dropWhile_eq_self_of_all {p : Char → Bool} {l : List Char}
    (h : ∀ x ∈ l, p x = false) : l.dropWhile p = l := by
  cases l with
  | nil => rfl
  | cons a t =>
    rw [List.dropWhile_cons, h a (List.mem_cons_self a t)]
    simp

theorem takeWhile_eq_self_of_all {p : Char → Bool} {l : List Char}
    (h : ∀ x ∈ l, p x = true) : l.takeWhile p = l := by
  induction l with
  | nil => rfl
  | cons a t ih =>
    rw [List.takeWhile_cons, h a (List.mem_cons_self a t)]
    simp [ih (fun x hx => h x (List.mem_cons_of_mem a hx))]

theorem jsTrim_eq_self {l : List Char} (h : ∀ x ∈ l, jsSpace x = false) :
    jsTrim l = l := by
  unfold jsTrim
  rw [dropWhile_eq_self_of_all h,
      dropWhile_eq_self_of_all (fun x hx => h x (List.mem_reverse.mp hx)),
      List.reverse_reverse]

theorem nospace_append {a b : List Char} (ha : ∀ x ∈ a, jsSpace x = false)
    (hb : ∀ x ∈ b, jsSpace x = false) : ∀ x ∈ a ++ b, jsSpace x = false := by
  intro x hx
  rcases List.mem_append.mp hx with h | h
  · exact ha x h
  · exact hb x h

theorem stripTrailingSlashes_append_slash (x : List Char) :
    stripTrailingSlashes (x ++ ['/']) = stripTrailingSlashes x := by
  unfold stripTrailingSlashes
  rw [List.reverse_append]
  simp [List.dropWhile_cons]

theorem stripTrailingSlashes_eq_self {x d : List Char} (hd : d ≠ [])
    (h : ∀ c ∈ d, (c == '/') = false) :
    stripTrailingSlashes (x ++ d) = x ++ d := by
  obtain ⟨c, r, hcr⟩ :=
    List.exists_cons_of_ne_nil (show d.reverse ≠ [] by simpa using hd)
  have hc : (c == '/') = false :=
    h c (by rw [← List.mem_reverse, hcr]; exact List.mem_cons_self c r)
  have hd2 : d = r.reverse ++ [c] := by
    rw [← List.reverse_reverse d, hcr, List.reverse_cons]
  unfold stripTrailingSlashes
  rw [List.reverse_append, hcr, List.cons_append, List.dropWhile_cons, hc]
  simp [hd2]

theorem stripTrailingSlashes_eq_self' {d : List Char} (hd : d ≠ [])
    (h : ∀ c ∈ d, (c == '/') = false) : stripTrailingSlashes d = d := by
  have := stripTrailingSlashes_eq_self (x := []) hd h
  simpa using this

theorem domainChar_split {c : Char} (h : domainChar c = true) :
    hostEnd c = false ∧ jsSpace c = false := by
  unfold domainChar at h
  cases h1 : hostEnd c <;> cases h2 : jsSpace c <;>
    simp [h1, h2] at h ⊢

theorem domainChar_not_slash {c : Char} (h : domainChar c = true) :
    (c == '/') = false := by
  have h1 := (domainChar_split h).1
  unfold hostEnd at h1
  cases hb : (c == '/') with
  | false => rfl
  | true => rw [hb] at h1; simp at h1

theorem safeChars_facts : ∀ x ∈ safeChars,
    domainChar x = true ∧ authorityEnd x = false ∧ (x == '@') = false ∧
    (x == ':') = false ∧ lowerAscii x = x := by decide

theorem hostChar_facts {c : Char} (h : hostChar c = true) :
    domainChar c = true ∧ authorityEnd c = false ∧ (c == '@') = false ∧
    (c == ':') = false ∧ lowerAscii c = c :=
  safeChars_facts c (List.mem_of_elem_eq_true h)

theorem hostChar_domainChar {c : Char} (h : hostChar c = true) :
    domainChar c = true := (hostChar_facts h).1

theorem map_eq_self_of_all {f : Char → Char} {l : List Char}
    (h : ∀ x ∈ l, f x = x) : l.map f = l := by
  induction l with
  | nil => rfl
  | cons a t ih =>
    rw [List.map_cons, h a (List.mem_cons_self a t),
        ih (fun x hx => h x (List.mem_cons_of_mem a hx))]

theorem jsHostname_eq_self {r : List Char}
    (hall : ∀ c ∈ r, hostChar c = true) : jsHostname r = r := by
  have h1 : r.takeWhile (fun c => !authorityEnd c) = r :=
    takeWhile_eq_self_of_all (fun c hc => by
      simp [(hostChar_facts (hall c hc)).2.1])
  have h2 : r.reverse.takeWhile (fun c => !(c == '@')) = r.reverse :=
    takeWhile_eq_self_of_all (fun c hc => by
      simp [(hostChar_facts (hall c (List.mem_reverse.mp hc))).2.2.1])
  have h3 : r.takeWhile (fun c => !(c == ':')) = r :=
    takeWhile_eq_self_of_all (fun c hc => by
      simp [(hostChar_facts (hall c hc)).2.2.2.1])
  have h4 : r.map lowerAscii = r :=
    map_eq_self_of_all (fun c hc => (hostChar_facts (hall c hc)).2.2.2.2)
  unfold jsHostname
  rw [h1, h2, List.reverse_reverse, h3, h4]

theorem not_https_prefix_http (r : List Char) :
    "https://".data.isPrefixOf ("http://".data ++ r) = false := by
  cases hb : "https://".data.isPrefixOf ("http://".data ++ r) with
  | false => rfl
  | true =>
    obtain ⟨t, ht⟩ := isPrefixOf_eq_true_iff.mp hb
    have h5 := congrArg (List.take 5) ht
    rw [List.take_append_of_le_length (by decide),
        List.take_append_of_le_length (by decide)] at h5
    exact absurd h5 (by decide)

theorem not_http_prefix_w (xs : List Char) :
    "http".data.isPrefixOf ('w' :: xs) = false := by
  simp [List.isPrefixOf]

theorem hostOf_all_host {r : List Char} (hne : r ≠ [])
    (hall : ∀ c ∈ r, hostChar c = true) : hostOf r = some r := by
  unfold hostOf
  rw [jsHostname_eq_self hall]
  simp [List.isEmpty_iff, hne]

theorem parseHostname_https {r : List Char} (hne : r ≠ [])
    (hall : ∀ c ∈ r, hostChar c = true) :
    parseHostname ("https://".data ++ r) = some r := by
  unfold parseHostname
  rw [if_pos (show "https://".data.isPrefixOf ("https://".data ++ r) = true from
        isPrefixOf_of_isPre (List.prefix_append _ _)),
      show ("https://".data ++ r).drop 8 = r from by
        rw [show (8 : ℕ) = ("https://".data).length from rfl, List.drop_left]]
  exact hostOf_all_host hne hall

theorem parseHostname_http {r : List Char} (hne : r ≠ [])
    (hall : ∀ c ∈ r, hostChar c = true) :
    parseHostname ("http://".data ++ r) = some r := by
  unfold parseHostname
  rw [if_neg (ne_true_of_eq_false (not_https_prefix_http r)),
      if_pos (show "http://".data.isPrefixOf ("http://".data ++ r) = true from
        isPrefixOf_of_isPre (List.prefix_append _ _)),
      show ("http://".data ++ r).drop 7 = r from by
        rw [show (7 : ℕ) = ("http://".data).length from rfl, List.drop_left]]
  exact hostOf_all_host hne hall

theorem parseHostname_no_scheme {d : List Char}
    (h : ∀ c ∈ d, (c == '/') = false) : parseHostname d = none := by
  have key : ∀ p : List Char, '/' ∈ p → p.isPrefixOf d = false := by
    intro p hp
    cases hb : p.isPrefixOf d with
    | false => rfl
    | true =>
      have hmem : '/' ∈ d := (isPrefixOf_eq_true_iff.mp hb).subset hp
      exact absurd (h '/' hmem) (by decide)
  unfold parseHostname
  rw [if_neg (ne_true_of_eq_false (key _ (by decide))),
      if_neg (ne_true_of_eq_false (key _ (by decide)))]

theorem stripWww_www (d : List Char) : stripWww ("www.".data ++ d) = d := by
  unfold stripWww
  rw [if_pos (show "www.".data.isPrefixOf ("www.".data ++ d) = true from
        isPrefixOf_of_isPre (List.prefix_append _ _)),
      show ("www.".data ++ d).drop 4 = d from by
        rw [show (4 : ℕ) = ("www.".data).length from rfl, List.drop_left]]

theorem stripWww_eq_self {d : List Char}
    (h : "www.".data.isPrefixOf d = false) : stripWww d = d := by
  unfold stripWww
  rw [if_neg (ne_true_of_eq_false h)]

theorem cleanDomainOf_strip (pre core tail : List Char)
    (hne : core ≠ []) (hall : ∀ c ∈ core, hostChar c = true)
    (hpre : pre = "http://".data ∨ pre = "https://".data)
    (htail : tail = [] ∨ tail = ['/']) :
    cleanDomainOf (stripTrailingSlashes (pre ++ (core ++ tail))) =
      stripWww core := by
  have hslash : ∀ c ∈ core, (c == '/') = false :=
    fun c hc => domainChar_not_slash (hostChar_domainChar (hall c hc))
  have hstrip : stripTrailingSlashes (pre ++ (core ++ tail)) = pre ++ core := by
    rcases htail with h | h <;> subst h
    · rw [List.append_nil]
      exact stripTrailingSlashes_eq_self hne hslash
    · rw [← List.append_assoc, stripTrailingSlashes_append_slash]
      exact stripTrailingSlashes_eq_self hne hslash
  rw [hstrip]
  unfold cleanDomainOf
  rcases hpre with h | h <;> subst h
  · rw [parseHostname_http hne hall]
  · rw [parseHostname_https hne hall]

/-! ## Claim theorems -/

/-- C6: for every valid domain string, the URL normalizer yields the same
canonical domain whether or not the input carries a scheme (`http://` or
`https://`), a leading `www.` label, or a trailing slash: each of the twelve
variants canonicalizes to the bare domain itself. -/
theorem url_normalizer_canonical (d sch : List Char) (www sl : Bool)
    (hd : validDomain d = true)
    (hsch : sch = [] ∨ sch = "http://".data ∨ sch = "https://".data) :
    canonicalDomain
      (sch ++ ((if www then "www.".data else []) ++
        (d ++ (if sl then ['/'] else [])))) = d := by
  obtain ⟨⟨hne, hall⟩, hwww⟩ :
      (d ≠ [] ∧ ∀ c ∈ d, hostChar c = true) ∧
        "www.".data.isPrefixOf d = false := by
    simpa [validDomain, List.all_eq_true, List.isEmpty_iff] using hd
  have halld : ∀ c ∈ d, domainChar c = true :=
    fun c hc => hostChar_domainChar (hall c hc)
  obtain ⟨tail, hts, htail⟩ :
      ∃ t, (if sl then ['/'] else ([] : List Char)) = t ∧
        (t = [] ∨ t = ['/']) := by
    cases sl
    · exact ⟨[], rfl, Or.inl rfl⟩
    · exact ⟨['/'], rfl, Or.inr rfl⟩
  rw [hts]
  obtain ⟨wp, hwp, hwpc⟩ :
      ∃ w, (if www then "www.".data else ([] : List Char)) = w ∧
        (w = [] ∨ w = "www.".data) := by
    cases www
    · exact ⟨[], rfl, Or.inl rfl⟩
    · exact ⟨"www.".data, rfl, Or.inr rfl⟩
  rw [hwp]
  have hnsd : ∀ x ∈ d, jsSpace x = false :=
    fun x hx => (domainChar_split (halld x hx)).2
  have hnst : ∀ x ∈ tail, jsSpace x = false := by
    rcases htail with h | h <;> subst h
    · intro x hx; exact absurd hx (List.not_mem_nil x)
    · intro x hx
      rw [List.mem_singleton] at hx
      subst hx; decide
  have hnsw : ∀ x ∈ wp, jsSpace x = false := by
    rcases hwpc with h | h <;> subst h
    · intro x hx; exact absurd hx (List.not_mem_nil x)
    · decide
  have hnscore : ∀ x ∈ wp ++ (d ++ tail), jsSpace x = false :=
    nospace_append hnsw (nospace_append hnsd hnst)
  have hallw : ∀ c ∈ wp, hostChar c = true := by
    rcases hwpc with h | h <;> subst h
    · intro x hx; exact absurd hx (List.not_mem_nil x)
    · decide
  have hallcore : ∀ c ∈ wp ++ d, hostChar c = true := by
    intro c hc
    rcases List.mem_append.mp hc with h | h
    · exact hallw c h
    · exact hall c h
  have hcorene : wp ++ d ≠ [] := by
    intro hx
    exact hne (List.append_eq_nil.mp hx).2
  have hstripw : stripWww (wp ++ d) = d := by
    rcases hwpc with h | h <;> subst h
    · rw [List.nil_append]
      exact stripWww_eq_self hwww
    · exact stripWww_www d
  rcases hsch with h | h | h <;> subst h
  · -- no scheme in the input
    rw [List.nil_append]
    rcases hwpc with hw | hw <;> subst hw
    · -- no www label either: branch on whether the bare domain starts with "http"
      rw [List.nil_append] at hnscore ⊢
      by_cases hb : "http".data.isPrefixOf (jsTrim (d ++ tail)) = true
      · unfold canonicalDomain normalizeScrapeUrl
        rw [if_pos hb, jsTrim_eq_self (nospace_append hnsd hnst)]
        have hslash : ∀ c ∈ d, (c == '/') = false :=
          fun c hc => domainChar_not_slash (halld c hc)
        have hstrip : stripTrailingSlashes (d ++ tail) = d := by
          rcases htail with h | h <;> subst h
          · rw [List.append_nil]
            exact stripTrailingSlashes_eq_self' hne hslash
          · rw [stripTrailingSlashes_append_slash]
            exact stripTrailingSlashes_eq_self' hne hslash
        rw [hstrip]
        unfold cleanDomainOf
        rw [parseHostname_no_scheme hslash]
      · unfold canonicalDomain normalizeScrapeUrl
        rw [if_neg hb, jsTrim_eq_self (nospace_append hnsd hnst)]
        calc cleanDomainOf (stripTrailingSlashes ("https://".data ++ (d ++ tail)))
            = stripWww d :=
              cleanDomainOf_strip _ d tail hne hall (Or.inr rfl) htail
          _ = d := stripWww_eq_self hwww
    · -- leading "www." label, no scheme
      unfold canonicalDomain normalizeScrapeUrl
      rw [jsTrim_eq_self hnscore]
      rw [if_neg (ne_true_of_eq_false (show "http".data.isPrefixOf
            ("www.".data ++ (d ++ tail)) = false from not_http_prefix_w _))]
      rw [show "www.".data ++ (d ++ tail) = ("www.".data ++ d) ++ tail from
            (List.append_assoc _ _ _).symm]
      calc cleanDomainOf (stripTrailingSlashes
              ("https://".data ++ (("www.".data ++ d) ++ tail)))
          = stripWww ("www.".data ++ d) :=
            cleanDomainOf_strip _ _ tail (by simp) (by
              intro c hc
              rcases List.mem_append.mp hc with h | h
              · exact (by decide : ∀ c ∈ "www.".data, hostChar c = true) c h
              · exact hall c h) (Or.inr rfl) htail
        _ = d := stripWww_www d
  · -- explicit "http://" scheme
    unfold canonicalDomain normalizeScrapeUrl
    rw [jsTrim_eq_self (nospace_append (by decide) hnscore)]
    rw [if_pos (isPrefixOf_of_isPre
          ((show "http".data <+: "http://".data by decide).trans
            (List.prefix_append _ _)))]
    rw [show wp ++ (d ++ tail) = (wp ++ d) ++ tail from
          (List.append_assoc _ _ _).symm]
    calc cleanDomainOf (stripTrailingSlashes
            ("http://".data ++ ((wp ++ d) ++ tail)))
        = stripWww (wp ++ d) :=
          cleanDomainOf_strip _ _ tail hcorene hallcore (Or.inl rfl) htail
      _ = d := hstripw
  · -- explicit "https://" scheme
    unfold canonicalDomain normalizeScrapeUrl
    rw [jsTrim_eq_self (nospace_append (by decide) hnscore)]
    rw [if_pos (isPrefixOf_of_isPre
          ((show "http".data <+: "https://".data by decide).trans
            (List.prefix_append _ _)))]
    rw [show wp ++ (d ++ tail) = (wp ++ d) ++ tail from
          (List.append_assoc _ _ _).symm]
    calc cleanDomainOf (stripTrailingSlashes
            ("https://".data ++ ((wp ++ d) ++ tail)))
        = stripWww (wp ++ d) :=
          cleanDomainOf_strip _ _ tail hcorene hallcore (Or.inr rfl) htail
      _ = d := hstripw

/-- Witness for C6 at the spec's example: input `"example.com/"` yields
canonical domain `"example.com"`. -/
theorem url_normalizer_canonical_witness :
    canonicalDomain "example.com/".data = "example.com".data := by
  have h := url_normalizer_canonical "example.com".data [] false true
    (by decide) (Or.inl rfl)
  simpa using h

/-! ## Branch-invariant facts about a request that passes the gate -/

theorem POST_effects_fixed (env : Env) (u cid : List Char)
    (record : Option Company) (hu : u ≠ []) (hc : cid ≠ [])
    (hgate : rateLimited env record = false) :
    (POST env (some u) (some cid) record).effects.scrapeCalled = true ∧
    (POST env (some u) (some cid) record).effects.extractorInput =
      some (mdContentOf env u) ∧
    (POST env (some u) (some cid) record).effects.geminiCalled =
      env.geminiKey ∧
    (POST env (some u) (some cid) record).effects.geminiContent =
      (if env.geminiKey = true then some ((mdContentOf env u).take 100000)
       else none) := by
  rcases record with _ | c <;>
    cases hk : env.geminiKey <;>
    cases h6 : env.dbUpdateError <;>
    cases h4 : env.geminiResult <;>
    cases h5 : groqOutcome env <;>
    simp [POST, hu, hc, hgate, hk, h4, h5, h6, extractWithGroq]

theorem POST_effects_groq (env : Env) (u cid : List Char)
    (record : Option Company) (ge : String) (hu : u ≠ []) (hc : cid ≠ [])
    (hgate : rateLimited env record = false)
    (hkey : env.geminiKey = true) (hgem : env.geminiResult = .error ge) :
    (POST env (some u) (some cid) record).effects.groqCalled = true ∧
    (POST env (some u) (some cid) record).effects.groqContent =
      (if env.groqKey = true then some ((mdContentOf env u).take 60000)
       else none) := by
  rcases record with _ | c <;>
    cases h6 : env.dbUpdateError <;>
    cases h5 : groqOutcome env <;>
    simp [POST, hu, hc, hgate, hkey, hgem, h5, h6, extractWithGroq]

theorem POST_write_shape (env : Env) (u0 c0 : Option (List Char))
    (record : Option Company) :
    ((POST env u0 c0 record).effects.writtenPayload = none ∧
      (POST env u0 c0 record).db = record) ∨
    (∃ gp prov,
      (POST env u0 c0 record).effects.writtenPayload =
        some (payloadOf env (u0.getD []) gp prov) ∧
      ((POST env u0 c0 record).db = record ∨
        (POST env u0 c0 record).db =
          Option.map (applyPayload (payloadOf env (u0.getD []) gp prov))
            record)) := by
  by_cases h1 : u0.getD [] = [] ∨ c0.getD [] = []
  · left; simp [POST, h1, noEffects]
  · by_cases h2 : rateLimited env record = true
    · left; simp [POST, h1, h2, noEffects]
    · cases hk : env.geminiKey with
      | true =>
        cases h4 : env.geminiResult with
        | ok pd =>
          right
          rcases record with _ | c
          · exact ⟨toPartial pd, "gemini",
              by simp [POST, h1, h2, hk, h4, payloadOf],
              Or.inl (by simp [POST, h1, h2, hk, h4])⟩
          · cases h6 : env.dbUpdateError with
            | none =>
              exact ⟨toPartial pd, "gemini",
                by simp [POST, h1, h2, hk, h4, h6, payloadOf],
                Or.inr (by simp [POST, h1, h2, hk, h4, h6, payloadOf])⟩
            | some e =>
              exact ⟨toPartial pd, "gemini",
                by simp [POST, h1, h2, hk, h4, h6, payloadOf],
                Or.inl (by simp [POST, h1, h2, hk, h4, h6])⟩
        | error ge =>
          cases h5 : groqOutcome env with
          | ok pd =>
            right
            rcases record with _ | c
            · exact ⟨pd, "groq",
                by simp [POST, h1, h2, hk, h4, h5, extractWithGroq, payloadOf],
                Or.inl (by simp [POST, h1, h2, hk, h4, h5, extractWithGroq])⟩
            · cases h6 : env.dbUpdateError with
              | none =>
                exact ⟨pd, "groq",
                  by simp [POST, h1, h2, hk, h4, h5, h6, extractWithGroq,
                    payloadOf],
                  Or.inr (by simp [POST, h1, h2, hk, h4, h5, h6,
                    extractWithGroq, payloadOf])⟩
              | some e =>
                exact ⟨pd, "groq",
                  by simp [POST, h1, h2, hk, h4, h5, h6, extractWithGroq,
                    payloadOf],
                  Or.inl (by simp [POST, h1, h2, hk, h4, h5, h6,
                    extractWithGroq])⟩
          | error qe =>
            left
            simp [POST, h1, h2, hk, h4, h5, extractWithGroq]
      | false =>
        cases h5 : groqOutcome env with
        | ok pd =>
          right
          rcases record with _ | c
          · exact ⟨pd, "groq",
              by simp [POST, h1, h2, hk, h5, extractWithGroq, payloadOf],
              Or.inl (by simp [POST, h1, h2, hk, h5, extractWithGroq])⟩
          · cases h6 : env.dbUpdateError with
            | none =>
              exact ⟨pd, "groq",
                by simp [POST, h1, h2, hk, h5, h6, extractWithGroq, payloadOf],
                Or.inr (by simp [POST, h1, h2, hk, h5, h6, extractWithGroq,
                  payloadOf])⟩
            | some e =>
              exact ⟨pd, "groq",
                by simp [POST, h1, h2, hk, h5, h6, extractWithGroq, payloadOf],
                Or.inl (by simp [POST, h1, h2, hk, h5, h6, extractWithGroq])⟩
        | error qe =>
          left
          simp [POST, h1, h2, hk, h5, extractWithGroq]

/-- C1: when the stored `last_enriched_at` is less than one hour old at the
check, the endpoint returns 429 with an error message, no payload, performs
no external call at all (no scrape, no provider call, no database write),
and leaves the row unchanged. -/
theorem rate_limit_rejects_fresh_entity (env : Env) (u cid : List Char)
    (c : Company) (t : Int) (hu : u ≠ []) (hc : cid ≠ [])
    (hlast : c.last_enriched_at = some t)
    (h0 : 0 ≤ env.now - t) (h1 : env.now - t < 3600000) :
    (POST env (some u) (some cid) (some c)).status = 429 ∧
    ((POST env (some u) (some cid) (some c)).error).isSome = true ∧
    (POST env (some u) (some cid) (some c)).payload = none ∧
    (POST env (some u) (some cid) (some c)).effects = noEffects ∧
    (POST env (some u) (some cid) (some c)).db = some c := by
  have hgate : rateLimited env (some c) = true := by
    simp [rateLimited, hlast, h1]
  simp [POST, hgate, hu, hc]

/-- Witness for C1: an entity enriched ten minutes ago is rejected with 429
and no effects. -/
theorem rate_limit_rejects_fresh_entity_witness :
    (POST envFix (some "acme.com".data) (some "c1".data)
      (some recentFix)).status = 429 ∧
    ((POST envFix (some "acme.com".data) (some "c1".data)
      (some recentFix)).error).isSome = true ∧
    (POST envFix (some "acme.com".data) (some "c1".data)
      (some recentFix)).payload = none ∧
    (POST envFix (some "acme.com".data) (some "c1".data)
      (some recentFix)).effects = noEffects ∧
    (POST envFix (some "acme.com".data) (some "c1".data)
      (some recentFix)).db = some recentFix :=
  rate_limit_rejects_fresh_entity envFix "acme.com".data "c1".data
    recentFix 0 (by decide) (by decide) rfl (by decide) (by decide)

/-- C2: when the primary provider is configured and fails and the fallback
also fails, the endpoint returns 500 with a message carrying both underlying
error strings, no payload, performs no database write, and the row is
unchanged. -/
theorem both_providers_failed_surfaces_both (env : Env) (u cid : List Char)
    (record : Option Company) (ge qe : String)
    (hu : u ≠ []) (hc : cid ≠ [])
    (hgate : rateLimited env record = false)
    (hkey : env.geminiKey = true)
    (hgem : env.geminiResult = .error ge)
    (hgroq : groqOutcome env = .error qe) :
    (POST env (some u) (some cid) record).status = 500 ∧
    (POST env (some u) (some cid) record).error =
      some ("Both Gemini and Groq failed. Gemini: " ++ ge ++
        ". Groq: " ++ qe) ∧
    ge.data <:+:
      ("Both Gemini and Groq failed. Gemini: " ++ ge ++
        ". Groq: " ++ qe).data ∧
    qe.data <:+:
      ("Both Gemini and Groq failed. Gemini: " ++ ge ++
        ". Groq: " ++ qe).data ∧
    (POST env (some u) (some cid) record).payload = none ∧
    (POST env (some u) (some cid) record).effects.dbWriteAttempted = false ∧
    (POST env (some u) (some cid) record).effects.writtenPayload = none ∧
    (POST env (some u) (some cid) record).db = record := by
  refine ⟨?_, ?_, ?_, ?_, ?_, ?_, ?_, ?_⟩
  · simp [POST, hu, hc, hgate, hkey, hgem, extractWithGroq, hgroq]
  · simp [POST, hu, hc, hgate, hkey, hgem, extractWithGroq, hgroq]
  · exact ⟨"Both Gemini and Groq failed. Gemini: ".data,
      (". Groq: " ++ qe).data, by simp [String.data_append, List.append_assoc]⟩
  · exact ⟨("Both Gemini and Groq failed. Gemini: " ++ ge ++ ". Groq: ").data,
      [], by simp [String.data_append, List.append_assoc]⟩
  · simp [POST, hu, hc, hgate, hkey, hgem, extractWithGroq, hgroq]
  · simp [POST, hu, hc, hgate, hkey, hgem, extractWithGroq, hgroq]
  · simp [POST, hu, hc, hgate, hkey, hgem, extractWithGroq, hgroq]
  · simp [POST, hu, hc, hgate, hkey, hgem, extractWithGroq, hgroq]

/-- Witness for C2 at a concrete run where both providers fail. -/
theorem both_providers_failed_surfaces_both_witness :
    (POST envBothFail (some "acme.com".data) (some "c1".data)
      (some shellFix)).status = 500 ∧
    (POST envBothFail (some "acme.com".data) (some "c1".data)
      (some shellFix)).error = some ("Both Gemini and Groq failed. Gemini: " ++
        "gemini boom" ++ ". Groq: " ++ "groq boom") ∧
    ("gemini boom").data <:+: ("Both Gemini and Groq failed. Gemini: " ++
      "gemini boom" ++ ". Groq: " ++ "groq boom").data ∧
    ("groq boom").data <:+: ("Both Gemini and Groq failed. Gemini: " ++
      "gemini boom" ++ ". Groq: " ++ "groq boom").data ∧
    (POST envBothFail (some "acme.com".data) (some "c1".data)
      (some shellFix)).payload = none ∧
    (POST envBothFail (some "acme.com".data) (some "c1".data)
      (some shellFix)).effects.dbWriteAttempted = false ∧
    (POST envBothFail (some "acme.com".data) (some "c1".data)
      (some shellFix)).effects.writtenPayload = none ∧
    (POST envBothFail (some "acme.com".data) (some "c1".data)
      (some shellFix)).db = some shellFix :=
  both_providers_failed_surfaces_both envBothFail "acme.com".data "c1".data
    (some shellFix) "gemini boom" "groq boom" (by decide) (by decide)
    rfl rfl rfl rfl

/-- C4: whenever a run reaches the database write and the update fails, the
endpoint returns 500 with the persistence error message, returns no
enrichment payload, and the row keeps its previous state. -/
theorem persistence_failure_reported_as_error (env : Env)
    (u0 c0 : Option (List Char)) (c : Company) (e : String)
    (hw : (POST env u0 c0 (some c)).effects.dbWriteAttempted = true)
    (he : env.dbUpdateError = some e) :
    (POST env u0 c0 (some c)).status = 500 ∧
    (POST env u0 c0 (some c)).error =
      some ("Failed to save enrichment to database: " ++ e) ∧
    (POST env u0 c0 (some c)).payload = none ∧
    (POST env u0 c0 (some c)).db = some c := by
  by_cases h1 : u0.getD [] = [] ∨ c0.getD [] = []
  · simp [POST, h1, noEffects] at hw
  · by_cases h2 : rateLimited env (some c) = true
    · simp [POST, h1, h2, noEffects] at hw
    · cases h3 : env.geminiKey with
      | true =>
        cases h4 : env.geminiResult with
        | ok pd => simp [POST, h1, h2, h3, h4, he]
        | error ge =>
          cases h5 : groqOutcome env with
          | ok pd =>
            simp [POST, h1, h2, h3, h4, h5, extractWithGroq, he]
          | error qe =>
            simp [POST, h1, h2, h3, h4, h5, extractWithGroq] at hw
      | false =>
        cases h5 : groqOutcome env with
        | ok pd => simp [POST, h1, h2, h3, h5, extractWithGroq, he]
        | error qe =>
          simp [POST, h1, h2, h3, h5, extractWithGroq] at hw

/-- Witness for C4 at a concrete run with a failing update. -/
theorem persistence_failure_reported_as_error_witness :
    (POST envDbFail (some "acme.com".data) (some "c1".data)
      (some shellFix)).status = 500 ∧
    (POST envDbFail (some "acme.com".data) (some "c1".data)
      (some shellFix)).error =
      some ("Failed to save enrichment to database: " ++ "connection reset") ∧
    (POST envDbFail (some "acme.com".data) (some "c1".data)
      (some shellFix)).payload = none ∧
    (POST envDbFail (some "acme.com".data) (some "c1".data)
      (some shellFix)).db = some shellFix :=
  persistence_failure_reported_as_error envDbFail (some "acme.com".data)
    (some "c1".data) shellFix "connection reset" rfl rfl

set_option maxRecDepth 4000 in
/-- C5: whenever the scrape fails or yields fewer than 50 characters after
trimming, the pipeline does not fail there: the extractor receives the
synthetic instruction block, which contains the literal cleaned domain, says
the page could not be scraped, and directs reasoning from general knowledge
and from the domain name; extraction then proceeds on that block. -/
theorem acquisition_failure_degrades_to_fallback (env : Env)
    (u cid : List Char) (record : Option Company)
    (hu : u ≠ []) (hc : cid ≠ [])
    (hgate : rateLimited env record = false)
    (hjina : env.jinaResult = none ∨
      ∃ tc, env.jinaResult = some tc ∧ (jsTrim tc).length < 50) :
    (POST env (some u) (some cid) record).effects.extractorInput =
      some (fallbackBlock (normalizeScrapeUrl u)
        (cleanDomainOf (normalizeScrapeUrl u))) ∧
    cleanDomainOf (normalizeScrapeUrl u) <:+:
      fallbackBlock (normalizeScrapeUrl u)
        (cleanDomainOf (normalizeScrapeUrl u)) ∧
    "could not be scraped".data <:+:
      fallbackBlock (normalizeScrapeUrl u)
        (cleanDomainOf (normalizeScrapeUrl u)) ∧
    "general knowledge".data <:+:
      fallbackBlock (normalizeScrapeUrl u)
        (cleanDomainOf (normalizeScrapeUrl u)) ∧
    "inferences from the domain name".data <:+:
      fallbackBlock (normalizeScrapeUrl u)
        (cleanDomainOf (normalizeScrapeUrl u)) ∧
    (env.geminiKey = true →
      (POST env (some u) (some cid) record).effects.geminiCalled = true) := by
  have hcond : (jsTrim (env.jinaResult.getD [])).length < 50 := by
    rcases hjina with h | ⟨tc, h, hlt⟩ <;> rw [h]
    · decide
    · simpa using hlt
  have hmd : mdContentOf env u =
      fallbackBlock (normalizeScrapeUrl u)
        (cleanDomainOf (normalizeScrapeUrl u)) := by
    simp [mdContentOf, hcond]
  have heff := POST_effects_fixed env u cid record hu hc hgate
  refine ⟨?_, ?_, ?_, ?_, ?_, ?_⟩
  · rw [heff.2.1, hmd]
  · exact ⟨("IMPORTANT: The website at ".data ++ normalizeScrapeUrl u ++
      " could not be scraped. However, you MUST still analyze this company using your training data and general knowledge.\n\nCompany domain: ".data),
      ("\nCompany URL: ".data ++ normalizeScrapeUrl u ++
      "\n\nUse everything you know about this company from your training data. If this is a well-known company, provide detailed analysis. If this is an unknown company, make reasonable inferences from the domain name about what they likely do, their probable sector, and potential signals. Do NOT return empty fields — always provide your best assessment.".data),
      by simp [fallbackBlock, List.append_assoc]⟩
  · refine List.IsInfix.trans (show "could not be scraped".data <:+:
      " could not be scraped. However, you MUST still analyze this company using your training data and general knowledge.\n\nCompany domain: ".data from by decide) ?_
    exact ⟨"IMPORTANT: The website at ".data ++ normalizeScrapeUrl u,
      (cleanDomainOf (normalizeScrapeUrl u) ++ ("\nCompany URL: ".data ++
        normalizeScrapeUrl u ++
        "\n\nUse everything you know about this company from your training data. If this is a well-known company, provide detailed analysis. If this is an unknown company, make reasonable inferences from the domain name about what they likely do, their probable sector, and potential signals. Do NOT return empty fields — always provide your best assessment.".data)),
      by simp [fallbackBlock, List.append_assoc]⟩
  · refine List.IsInfix.trans (show "general knowledge".data <:+:
      " could not be scraped. However, you MUST still analyze this company using your training data and general knowledge.\n\nCompany domain: ".data from by decide) ?_
    exact ⟨"IMPORTANT: The website at ".data ++ normalizeScrapeUrl u,
      (cleanDomainOf (normalizeScrapeUrl u) ++ ("\nCompany URL: ".data ++
        normalizeScrapeUrl u ++
        "\n\nUse everything you know about this company from your training data. If this is a well-known company, provide detailed analysis. If this is an unknown company, make reasonable inferences from the domain name about what they likely do, their probable sector, and potential signals. Do NOT return empty fields — always provide your best assessment.".data)),
      by simp [fallbackBlock, List.append_assoc]⟩
  · refine List.IsInfix.trans (show "inferences from the domain name".data <:+:
      "\n\nUse everything you know about this company from your training data. If this is a well-known company, provide detailed analysis. If this is an unknown company, make reasonable inferences from the domain name about what they likely do, their probable sector, and potential signals. Do NOT return empty fields — always provide your best assessment.".data from by decide) ?_
    refine List.IsSuffix.isInfix ?_
    exact ⟨"IMPORTANT: The website at ".data ++ normalizeScrapeUrl u ++
      " could not be scraped. However, you MUST still analyze this company using your training data and general knowledge.\n\nCompany domain: ".data ++
      cleanDomainOf (normalizeScrapeUrl u) ++ "\nCompany URL: ".data ++
      normalizeScrapeUrl u,
      by simp [fallbackBlock, List.append_assoc]⟩
  · intro hk
    rw [heff.2.2.1, hk]

/-- Witness for C5 at a concrete run whose scrape failed outright. -/
theorem acquisition_failure_degrades_to_fallback_witness :
    (POST envFix (some "acme.com".data) (some "c1".data)
      none).effects.extractorInput =
      some (fallbackBlock (normalizeScrapeUrl "acme.com".data)
        (cleanDomainOf (normalizeScrapeUrl "acme.com".data))) ∧
    cleanDomainOf (normalizeScrapeUrl "acme.com".data) <:+:
      fallbackBlock (normalizeScrapeUrl "acme.com".data)
        (cleanDomainOf (normalizeScrapeUrl "acme.com".data)) ∧
    "could not be scraped".data <:+:
      fallbackBlock (normalizeScrapeUrl "acme.com".data)
        (cleanDomainOf (normalizeScrapeUrl "acme.com".data)) ∧
    "general knowledge".data <:+:
      fallbackBlock (normalizeScrapeUrl "acme.com".data)
        (cleanDomainOf (normalizeScrapeUrl "acme.com".data)) :=
  have h := acquisition_failure_degrades_to_fallback envFix "acme.com".data
    "c1".data none (by decide) (by decide) rfl (Or.inl rfl)
  ⟨h.1, h.2.1, h.2.2.1, h.2.2.2.1⟩

/-- C7: when the embedding call fails but the update succeeds, the endpoint
still returns 200 with a payload, every other enrichment column is written,
and the stored embedding is exactly what it was before the run — null if it
was null. -/
theorem embedding_failure_nonfatal (env : Env) (u cid : List Char)
    (c : Company) (pd : ParsedData) (hu : u ≠ []) (hc : cid ≠ [])
    (hgate : rateLimited env (some c) = false)
    (hkey : env.geminiKey = true) (hgem : env.geminiResult = .ok pd)
    (hemb : env.embeddingResult = none) (hdb : env.dbUpdateError = none) :
    ∃ c', (POST env (some u) (some cid) (some c)).db = some c' ∧
      (POST env (some u) (some cid) (some c)).status = 200 ∧
      ((POST env (some u) (some cid) (some c)).payload).isSome = true ∧
      c'.embedding = c.embedding ∧
      (c.embedding = none → c'.embedding = none) ∧
      c'.enrichment_summary = some pd.summary ∧
      c'.what_they_do = some pd.whatTheyDo ∧
      c'.keywords = some pd.keywords ∧
      c'.signals = some pd.signals ∧
      (∃ s, c'.sources = some [s]) ∧
      c'.thesis_score = some pd.thesisScore ∧
      c'.thesis_explanation = some pd.thesisExplanation ∧
      c'.last_enriched_at = some env.now := by
  refine ⟨applyPayload
    { enrichment_summary := some pd.summary,
      what_they_do := some pd.whatTheyDo,
      keywords := some pd.keywords, signals := some pd.signals,
      sources := [{ url := u, fetchedAt := env.now, provider := "gemini" }],
      thesis_score := some pd.thesisScore,
      thesis_explanation := some pd.thesisExplanation,
      last_enriched_at := env.now, embedding := none } c,
    ?_, ?_, ?_, ?_, ?_, ?_, ?_, ?_, ?_, ?_, ?_, ?_, ?_⟩
  · simp [POST, hu, hc, hgate, hkey, hgem, hemb, hdb, toPartial]
  · simp [POST, hu, hc, hgate, hkey, hgem, hemb, hdb]
  · simp [POST, hu, hc, hgate, hkey, hgem, hemb, hdb]
  · simp [applyPayload, setOrKeep]
  · intro h; simp [applyPayload, setOrKeep, h]
  · simp [applyPayload, setOrKeep]
  · simp [applyPayload, setOrKeep]
  · simp [applyPayload, setOrKeep]
  · simp [applyPayload, setOrKeep]
  · exact ⟨{ url := u, fetchedAt := env.now, provider := "gemini" },
      by simp [applyPayload]⟩
  · simp [applyPayload, setOrKeep]
  · simp [applyPayload, setOrKeep]
  · simp [applyPayload]

/-- Witness for C7 at a concrete run with a failed embedding call on a row
whose embedding is null. -/
theorem embedding_failure_nonfatal_witness :
    ∃ c', (POST envNoEmbed (some "acme.com".data) (some "c1".data)
        (some shellFix)).db = some c' ∧
      (POST envNoEmbed (some "acme.com".data) (some "c1".data)
        (some shellFix)).status = 200 ∧
      ((POST envNoEmbed (some "acme.com".data) (some "c1".data)
        (some shellFix)).payload).isSome = true ∧
      c'.embedding = shellFix.embedding ∧
      (shellFix.embedding = none → c'.embedding = none) ∧
      c'.enrichment_summary = some pdFix.summary ∧
      c'.what_they_do = some pdFix.whatTheyDo ∧
      c'.keywords = some pdFix.keywords ∧
      c'.signals = some pdFix.signals ∧
      (∃ s, c'.sources = some [s]) ∧
      c'.thesis_score = some pdFix.thesisScore ∧
      c'.thesis_explanation = some pdFix.thesisExplanation ∧
      c'.last_enriched_at = some envNoEmbed.now :=
  embedding_failure_nonfatal envNoEmbed "acme.com".data "c1".data shellFix
    pdFix (by decide) (by decide) rfl rfl rfl rfl rfl

/-- C8 (amended): every update the persister sends replaces `sources` with
exactly a one-element array and always sets `last_enriched_at`; an update
carrying all six reply-derived members yields a fully enriched row when
applied to any row — and every write whose extraction came from the
schema-validated primary provider carries all six; a freshly tracked shell
row has every enrichment column absent.  The unvalidated secondary reply
can lack members, whose columns are then left untouched, so "never
partially enriched" does not hold in general (see the counterexample). -/
theorem persister_write_invariants (env : Env)
    (u0 c0 : Option (List Char)) (record : Option Company) :
    (∀ p, (POST env u0 c0 record).effects.writtenPayload = some p →
      (∃ s, p.sources = [s]) ∧ p.last_enriched_at = env.now ∧
      (fullPayload p → ∀ c, allEnrichedPresent (applyPayload p c))) ∧
    (∀ pd p, env.geminiKey = true → env.geminiResult = .ok pd →
      (POST env u0 c0 record).effects.writtenPayload = some p →
      fullPayload p) ∧
    allEnrichedAbsent (newCompanyData (c0.getD []) none (u0.getD [])) := by
  refine ⟨?_, ?_, ?_⟩
  · intro p hp
    rcases POST_write_shape env u0 c0 record with ⟨hnone, _⟩ |
      ⟨gp, prov, hsome, _⟩
    · rw [hnone] at hp; cases hp
    · rw [hsome] at hp
      injection hp with hp
      subst hp
      refine ⟨⟨_, rfl⟩, rfl, ?_⟩
      intro hfull c
      obtain ⟨f1, f2, f3, f4, f5, f6⟩ := hfull
      exact ⟨setOrKeep_isSome f1, setOrKeep_isSome f2, setOrKeep_isSome f3,
        setOrKeep_isSome f4, rfl, setOrKeep_isSome f5, setOrKeep_isSome f6,
        rfl⟩
  · intro pd p hkey hgem hp
    by_cases h1 : u0.getD [] = [] ∨ c0.getD [] = []
    · simp [POST, h1, noEffects] at hp
    · by_cases h2 : rateLimited env record = true
      · simp [POST, h1, h2, noEffects] at hp
      · rcases record with _ | c
        · simp [POST, h1, h2, hkey, hgem] at hp
          subst hp
          simp [fullPayload, toPartial]
        · cases h6 : env.dbUpdateError with
          | none =>
            simp [POST, h1, h2, hkey, hgem, h6] at hp
            subst hp
            simp [fullPayload, toPartial]
          | some e =>
            simp [POST, h1, h2, hkey, hgem, h6] at hp
            subst hp
            simp [fullPayload, toPartial]
  · simp [newCompanyData, allEnrichedAbsent]

/-- Witness for C8's amended statement at a concrete schema-validated run
over the shell row. -/
theorem persister_write_invariants_witness :
    (POST envFix (some "acme.com".data) (some "c1".data)
      (some shellFix)).effects.writtenPayload =
      some (payloadOf envFix "acme.com".data (toPartial pdFix) "gemini") ∧
    (∃ s, (payloadOf envFix "acme.com".data (toPartial pdFix)
      "gemini").sources = [s]) ∧
    fullPayload (payloadOf envFix "acme.com".data (toPartial pdFix)
      "gemini") ∧
    allEnrichedPresent (applyPayload
      (payloadOf envFix "acme.com".data (toPartial pdFix) "gemini")
      shellFix) := by
  have hw : (POST envFix (some "acme.com".data) (some "c1".data)
      (some shellFix)).effects.writtenPayload =
      some (payloadOf envFix "acme.com".data (toPartial pdFix) "gemini") :=
    rfl
  have h := (persister_write_invariants envFix (some "acme.com".data)
    (some "c1".data) (some shellFix)).1 _ hw
  have hfull := (persister_write_invariants envFix (some "acme.com".data)
    (some "c1".data) (some shellFix)).2.1 pdFix _ rfl rfl hw
  exact ⟨hw, h.1, hfull, h.2.2 hfull shellFix⟩

/-- Counterexample to C8 as stated: with no primary key configured and a
parseable secondary reply carrying only a summary — which the route
accepts, performing no shape validation — the endpoint reports success and
the stored row ends up with a summary but null keywords: a reachable state
that is neither all absent nor all present. -/
theorem persister_partial_write_counterexample :
    (POST envPartial (some "acme.com".data) (some "c1".data)
      (some shellFix)).status = 200 ∧
    ((POST envPartial (some "acme.com".data) (some "c1".data)
      (some shellFix)).db.getD shellFix).enrichment_summary = some "x" ∧
    ((POST envPartial (some "acme.com".data) (some "c1".data)
      (some shellFix)).db.getD shellFix).keywords = none ∧
    ¬ (allEnrichedAbsent ((POST envPartial (some "acme.com".data)
        (some "c1".data) (some shellFix)).db.getD shellFix) ∨
      allEnrichedPresent ((POST envPartial (some "acme.com".data)
        (some "c1".data) (some shellFix)).db.getD shellFix)) :=
  ⟨rfl, rfl, rfl, by decide⟩

/-- C9 (amended): the primary provider receives the acquired content
truncated to 100 000 characters and the configured secondary receives the
same acquired content truncated to 60 000 characters — the secondary's
submission is the primary's further truncated, and the two coincide exactly
when the acquired content holds at most 60 000 characters. -/
theorem extractor_truncation (env : Env) (u cid raw : List Char)
    (ge : String) (record : Option Company)
    (hu : u ≠ []) (hc : cid ≠ [])
    (hgate : rateLimited env record = false)
    (hjina : env.jinaResult = some raw)
    (hlen : ¬ (jsTrim raw).length < 50)
    (hkey : env.geminiKey = true)
    (hgem : env.geminiResult = .error ge) :
    (POST env (some u) (some cid) record).effects.geminiContent =
      some (raw.take 100000) ∧
    (POST env (some u) (some cid) record).effects.groqContent =
      (if env.groqKey = true then some (raw.take 60000) else none) ∧
    raw.take 60000 = (raw.take 100000).take 60000 ∧
    (raw.length ≤ 60000 → raw.take 100000 = raw.take 60000) := by
  have hmd : mdContentOf env u = raw := by
    simp [mdContentOf, hjina, hlen]
  have heff := POST_effects_fixed env u cid record hu hc hgate
  have hgq := POST_effects_groq env u cid record ge hu hc hgate hkey hgem
  refine ⟨?_, ?_, ?_, ?_⟩
  · rw [heff.2.2.2, hmd, if_pos hkey]
  · rw [hgq.2, hmd]
  · rw [List.take_take, show min 60000 100000 = 60000 from by omega]
  · intro h
    rw [List.take_of_length_le (le_trans h (by omega)),
        List.take_of_length_le h]

/-- Witness for C9's amended statement at a 60-character scrape, where the
two submissions coincide. -/
theorem extractor_truncation_witness :
    (POST envSmall (some "acme.com".data) (some "c1".data)
      none).effects.geminiContent =
      some ((List.replicate 60 'a').take 100000) ∧
    (POST envSmall (some "acme.com".data) (some "c1".data)
      none).effects.groqContent =
      (if envSmall.groqKey = true
       then some ((List.replicate 60 'a').take 60000) else none) ∧
    (List.replicate 60 'a').take 60000 =
      ((List.replicate 60 'a').take 100000).take 60000 ∧
    ((List.replicate 60 'a' : List Char).length ≤ 60000 →
      (List.replicate 60 'a' : List Char).take 100000 =
        (List.replicate 60 'a').take 60000) :=
  extractor_truncation envSmall "acme.com".data "c1".data
    (List.replicate 60 'a') "g" none (by decide) (by decide) rfl rfl
    (by decide) rfl rfl

/-- Counterexample to C9 as stated: on a 60 001-character scrape with the
primary failing, the primary received the full 60 001 characters while the
secondary was submitted only the first 60 000 — not the same content. -/
theorem extractor_truncation_counterexample :
    (POST envBig (some "acme.com".data) (some "c1".data)
      none).effects.geminiContent = some (List.replicate 60001 'a') ∧
    (POST envBig (some "acme.com".data) (some "c1".data)
      none).effects.groqContent = some (List.replicate 60000 'a') ∧
    (List.replicate 60001 'a' : List Char) ≠ List.replicate 60000 'a' := by
  have htr : jsTrim (List.replicate 60001 'a') = List.replicate 60001 'a' :=
    jsTrim_eq_self (fun x hx => by
      rcases List.mem_replicate.mp hx with ⟨_, rfl⟩
      decide)
  have hmd : mdContentOf envBig "acme.com".data =
      List.replicate 60001 'a' := by
    unfold mdContentOf
    rw [show envBig.jinaResult = some (List.replicate 60001 'a') from rfl,
        Option.getD_some, htr, List.length_replicate,
        if_neg (by omega : ¬ (60001 < 50))]
  have heff := POST_effects_fixed envBig "acme.com".data "c1".data none
    (by decide) (by decide) rfl
  have hgq := POST_effects_groq envBig "acme.com".data "c1".data none "g"
    (by decide) (by decide) rfl rfl rfl
  refine ⟨?_, ?_, ?_⟩
  · rw [heff.2.2.2, hmd,
        if_pos (show envBig.geminiKey = true from rfl), List.take_replicate,
        show min 100000 60001 = 60001 from by omega]
  · rw [hgq.2, hmd,
        if_pos (show envBig.groqKey = true from rfl), List.take_replicate,
        show min 60000 60001 = 60000 from by omega]
  · intro h
    have hlen60 := congrArg List.length h
    simp only [List.length_replicate] at hlen60
    omega

/-- C10: with no matching stored row, the gate passes, the pipeline runs to
completion, and the endpoint reports success with a payload even though the
update matched zero rows and nothing was persisted — no not-found error. -/
theorem unknown_company_returns_success (env : Env) (u cid : List Char)
    (pd : ParsedData) (hu : u ≠ []) (hc : cid ≠ [])
    (hkey : env.geminiKey = true) (hgem : env.geminiResult = .ok pd) :
    (POST env (some u) (some cid) none).status = 200 ∧
    (POST env (some u) (some cid) none).error = none ∧
    ((POST env (some u) (some cid) none).payload).isSome = true ∧
    (POST env (some u) (some cid) none).effects.dbWriteAttempted = true ∧
    (POST env (some u) (some cid) none).db = none := by
  simp [POST, rateLimited, hu, hc, hkey, hgem]

/-- Witness for C10 at a concrete run with no stored row. -/
theorem unknown_company_returns_success_witness :
    (POST envFix (some "acme.com".data) (some "c1".data) none).status = 200 ∧
    (POST envFix (some "acme.com".data) (some "c1".data) none).error = none ∧
    ((POST envFix (some "acme.com".data) (some "c1".data)
      none).payload).isSome = true ∧
    (POST envFix (some "acme.com".data) (some "c1".data)
      none).effects.dbWriteAttempted = true ∧
    (POST envFix (some "acme.com".data) (some "c1".data) none).db = none :=
  unknown_company_returns_success envFix "acme.com".data "c1".data pdFix
    (by decide) (by decide) rfl rfl

/-- C3 (amended): the similarity query returns only rows whose id differs
from the excluded one and whose embedding is non-null, includes a row only
when `1 - distance` strictly exceeds the threshold, orders the result
non-increasing by similarity, and returns at most the limit — for every
distance function, table, query vector, threshold, limit and exclusion. -/
theorem match_companies_filter_order_limit
    (dist : List Int → List Int → ℚ) (rows : List Company)
    (q : List Int) (thr : ℚ) (cnt : Nat) (excl : List Char) :
    (∀ m ∈ match_companies dist rows q thr cnt excl, m.id ≠ excl) ∧
    (∀ m ∈ match_companies dist rows q thr cnt excl,
      ∃ c ∈ rows, ∃ e, c.embedding = some e ∧ m.id = c.id ∧
        m.similarity = 1 - dist e q ∧ thr < m.similarity) ∧
    List.Pairwise (fun a b : MatchRow => b.similarity ≤ a.similarity)
      (match_companies dist rows q thr cnt excl) ∧
    (match_companies dist rows q thr cnt excl).length ≤ cnt := by
  have hmem : ∀ m ∈ match_companies dist rows q thr cnt excl,
      ∃ c ∈ rows, ∃ e, c.embedding = some e ∧ c.id ≠ excl ∧
        m = { id := c.id, name := c.name, domain := c.domain,
              sector := c.sector, stage := c.stage,
              similarity := 1 - dist e q } ∧ thr < 1 - dist e q := by
    intro m hm
    simp only [match_companies] at hm
    have hm1 := (List.take_sublist _ _).subset hm
    have hm2 := (List.perm_insertionSort _ _).subset hm1
    rw [List.mem_filterMap] at hm2
    obtain ⟨c, hcrows, hfc⟩ := hm2
    cases hemb : c.embedding with
    | none =>
      rw [hemb] at hfc
      exact absurd ((rfl : (none : Option MatchRow) = none) ▸ hfc)
        (by exact fun hx => Option.noConfusion hx)
    | some e =>
      rw [hemb] at hfc
      have hfc2 : (if c.id ≠ excl ∧ thr < 1 - dist e q then
          some { id := c.id, name := c.name, domain := c.domain,
                 sector := c.sector, stage := c.stage,
                 similarity := 1 - dist e q } else none) = some m := hfc
      by_cases hcond : c.id ≠ excl ∧ thr < 1 - dist e q
      · rw [if_pos hcond] at hfc2
        injection hfc2 with hfc2
        exact ⟨c, hcrows, e, hemb, hcond.1, hfc2.symm, hcond.2⟩
      · rw [if_neg hcond] at hfc2; cases hfc2
  refine ⟨?_, ?_, ?_, ?_⟩
  · intro m hm
    obtain ⟨c, _, e, _, hid, hmeq, _⟩ := hmem m hm
    rw [hmeq]
    exact hid
  · intro m hm
    obtain ⟨c, hcrows, e, hemb, _, hmeq, hthr⟩ := hmem m hm
    exact ⟨c, hcrows, e, hemb, by rw [hmeq], by rw [hmeq],
      by rw [hmeq]; exact hthr⟩
  · haveI : IsTotal MatchRow
        (fun a b : MatchRow => b.similarity ≤ a.similarity) :=
      ⟨fun a b => le_total b.similarity a.similarity⟩
    haveI : IsTrans MatchRow
        (fun a b : MatchRow => b.similarity ≤ a.similarity) :=
      ⟨fun a b c h1 h2 => le_trans h2 h1⟩
    simp only [match_companies]
    exact List.Pairwise.sublist (List.take_sublist _ _)
      (List.sorted_insertionSort _ _)
  · simp only [match_companies]
    exact List.length_take_le _ _

/-- Witness for C3's amended statement at a concrete two-row table. -/
theorem match_companies_filter_order_limit_witness :
    (∀ m ∈ match_companies (fun _ _ => 0) [rowFixA, rowFixB] [1] 0 5
        "a1".data, m.id ≠ "a1".data) ∧
    (∀ m ∈ match_companies (fun _ _ => 0) [rowFixA, rowFixB] [1] 0 5
        "a1".data,
      ∃ c ∈ [rowFixA, rowFixB], ∃ e, c.embedding = some e ∧ m.id = c.id ∧
        m.similarity = 1 - (fun _ _ => (0 : ℚ)) e [1] ∧
        (0 : ℚ) < m.similarity) ∧
    List.Pairwise (fun a b : MatchRow => b.similarity ≤ a.similarity)
      (match_companies (fun _ _ => 0) [rowFixA, rowFixB] [1] 0 5
        "a1".data) ∧
    (match_companies (fun _ _ => 0) [rowFixA, rowFixB] [1] 0 5
        "a1".data).length ≤ 5 :=
  match_companies_filter_order_limit (fun _ _ => 0) [rowFixA, rowFixB]
    [1] 0 5 "a1".data

/-- Counterexample to C3's strict-descending order: two rows with identical
embeddings tie in similarity, so the returned list is not strictly
descending. -/
theorem match_companies_strict_order_fails :
    ¬ List.Pairwise (fun a b : MatchRow => b.similarity < a.similarity)
      (match_companies (fun _ _ => 0) [rowFixA, rowFixB] [1] 0 5 []) := by
  intro h
  have hsim : (match_companies (fun _ _ => 0) [rowFixA, rowFixB] [1] 0 5
      []).map MatchRow.similarity = [1, 1] := by
    simp [match_companies, rowFixA, rowFixB, newCompanyData,
      List.insertionSort, List.orderedInsert]
  have h2 : List.Pairwise (fun a b : ℚ => b < a)
      ((match_companies (fun _ _ => 0) [rowFixA, rowFixB] [1] 0 5
        []).map MatchRow.similarity) := List.pairwise_map.mpr h
  rw [hsim] at h2
  simp at h2

end VCIntel
